import Mathlib

/-!
Verification of the OpenGL demo repository (breakout game, particle
systems, race animation) against its natural-language specification.
All floating-point arithmetic of the source is embedded over the
rationals; calls to library functions whose results the source only
passes around (sin, cos, sqrt, rand, glfwGetTime) are modelled as
oracle parameters so that every definition stays executable.
-/

namespace OpenGLProj

/-- Two-component vector of rationals, modelling glm::vec2. -/
structure Vec2 where
  x : ℚ
  y : ℚ
deriving DecidableEq

/-- Three-component vector of rationals, modelling glm::vec3. -/
structure Vec3 where
  x : ℚ
  y : ℚ
  z : ℚ
deriving DecidableEq

/-- Componentwise vector addition. -/
def v3add (a b : Vec3) : Vec3 := ⟨a.x + b.x, a.y + b.y, a.z + b.z⟩

/-- Scalar multiplication of a vector. -/
def v3smul (c : ℚ) (v : Vec3) : Vec3 := ⟨c * v.x, c * v.y, c * v.z⟩

/-! ## Breakout game (game2D.cpp) -/

/-- GameObject from game2D.cpp: an axis-aligned rectangle given by its
center position and its size, with a color and an active flag
(defaulting to true, as in the C++ default member initializer). -/
structure GameObject where
  position : Vec2
  size : Vec2
  color : Vec3
  active : Bool := true
deriving DecidableEq

/-- GameState from game2D.cpp. -/
structure GameState where
  paddle : GameObject
  ball : GameObject
  ballVelocity : Vec2
  bricks : List GameObject
  gameOver : Bool
  score : ℤ
  gameStarted : Bool
  startTime : ℚ
deriving DecidableEq

/-- checkCollision from game2D.cpp: AABB overlap test, a literal
transcription of the two conjunctions of the source. -/
def checkCollision (a b : GameObject) : Bool :=
  (decide (b.position.x - b.size.x / 2 ≤ a.position.x + a.size.x / 2) &&
   decide (a.position.x - a.size.x / 2 ≤ b.position.x + b.size.x / 2)) &&
  (decide (b.position.y - b.size.y / 2 ≤ a.position.y + a.size.y / 2) &&
   decide (a.position.y - a.size.y / 2 ≤ b.position.y + b.size.y / 2))

/-- The closed interval spanned by a game object along the x axis
contains a given point. -/
def inXInterval (o : GameObject) (t : ℚ) : Prop :=
  o.position.x - o.size.x / 2 ≤ t ∧ t ≤ o.position.x + o.size.x / 2

/-- The closed interval spanned by a game object along the y axis
contains a given point. -/
def inYInterval (o : GameObject) (t : ℚ) : Prop :=
  o.position.y - o.size.y / 2 ≤ t ∧ t ≤ o.position.y + o.size.y / 2

/-- The property claimed for checkCollision: the two x intervals
intersect and the two y intervals intersect. -/
def rectanglesOverlap (a b : GameObject) : Prop :=
  (∃ t, inXInterval a t ∧ inXInterval b t) ∧
  (∃ t, inYInterval a t ∧ inYInterval b t)

/-- A game object with a negative x size, whose x interval is empty. -/
def degenerateBox : GameObject :=
  { position := ⟨0, 0⟩, size := ⟨-10, 2⟩, color := ⟨1, 1, 1⟩ }

/-- A wide game object centered at the origin. -/
def wideBox : GameObject :=
  { position := ⟨0, 0⟩, size := ⟨20, 2⟩, color := ⟨1, 1, 1⟩ }

/-- C1, counterexample: for the pair (degenerateBox, wideBox) the code
returns true although the x intervals, one of which is empty because the
size is negative, do not intersect; so the claimed equivalence fails for
arbitrary game objects. -/
theorem checkCollision_iff_fails_on_negative_size :
    ¬ (checkCollision degenerateBox wideBox = true ↔
        rectanglesOverlap degenerateBox wideBox) := by
  intro h
  have hc : checkCollision degenerateBox wideBox = true := by
    simp only [checkCollision, degenerateBox, wideBox, Bool.and_eq_true, decide_eq_true_eq]
    norm_num
  obtain ⟨⟨t, hta, htb⟩, -⟩ := h.mp hc
  have h1 : (5 : ℚ) ≤ t := by
    have := hta.1
    norm_num [degenerateBox, inXInterval] at this
    linarith
  have h2 : t ≤ (-5 : ℚ) := by
    have := hta.2
    norm_num [degenerateBox, inXInterval] at this
    linarith
  linarith

/-- C1, amended: for game objects whose sizes are nonnegative (as all
game objects constructed by the program are), checkCollision returns
true iff the two rectangles overlap on both axes, i.e. the closed x
intervals intersect and the closed y intervals intersect. -/
theorem checkCollision_iff_overlap (a b : GameObject)
    (hax : 0 ≤ a.size.x) (hay : 0 ≤ a.size.y)
    (hbx : 0 ≤ b.size.x) (hby : 0 ≤ b.size.y) :
    checkCollision a b = true ↔ rectanglesOverlap a b := by
  unfold checkCollision rectanglesOverlap inXInterval inYInterval
  simp only [Bool.and_eq_true, decide_eq_true_eq]
  constructor
  · rintro ⟨⟨hx1, hx2⟩, ⟨hy1, hy2⟩⟩
    refine ⟨⟨max (a.position.x - a.size.x / 2) (b.position.x - b.size.x / 2), ?_, ?_⟩,
            ⟨max (a.position.y - a.size.y / 2) (b.position.y - b.size.y / 2), ?_, ?_⟩⟩
    · exact ⟨le_max_left _ _, max_le (by linarith) (by linarith)⟩
    · exact ⟨le_max_right _ _, max_le (by linarith) (by linarith)⟩
    · exact ⟨le_max_left _ _, max_le (by linarith) (by linarith)⟩
    · exact ⟨le_max_right _ _, max_le (by linarith) (by linarith)⟩
  · rintro ⟨⟨s, ⟨hsa1, hsa2⟩, ⟨hsb1, hsb2⟩⟩, ⟨t, ⟨hta1, hta2⟩, ⟨htb1, htb2⟩⟩⟩
    exact ⟨⟨by linarith, by linarith⟩, ⟨by linarith, by linarith⟩⟩

/-- Oracle for the library calls of game2D.cpp whose numeric results the
source only passes around: sinf, cosf, sqrtf (inside glm::length) and
the one rand() call of resetBall. -/
structure GOracle where
  sin : ℚ → ℚ
  cos : ℚ → ℚ
  sqrt : ℚ → ℚ
  rand : ℕ

/-- BRICK_ROWS from game2D.cpp. -/
def BRICK_ROWS : ℕ := 5

/-- BRICK_COLS from game2D.cpp. -/
def BRICK_COLS : ℕ := 8

/-- WAIT_TIME_SECONDS from game2D.cpp (4 minutes). -/
def WAIT_TIME_SECONDS : ℚ := 240

/-- The paddle as initGame sets it up. -/
def initPaddle : GameObject :=
  { position := ⟨0, -0.9⟩, size := ⟨0.2, 0.03⟩, color := ⟨0.2, 0.6, 1⟩ }

/-- The ball object as resetBall sets it up. -/
def resetBallObj : GameObject :=
  { position := ⟨0, -0.7⟩, size := ⟨0.02, 0.02⟩, color := ⟨1, 1, 1⟩ }

/-- The ball velocity as resetBall sets it up: a random angle between
-45 and 45 degrees, x component BALL_VELOCITY times its sine, y
component BALL_VELOCITY. -/
def resetBallVel (orc : GOracle) : Vec2 :=
  let angle : ℚ := (((orc.rand % 90 : ℕ) : ℚ) - 45) * 3.14159 / 180
  ⟨0.01 * orc.sin angle, 0.01⟩

/-- The per-row brick color of initGame. -/
def brickColor (row : ℕ) : Vec3 :=
  match row with
  | 0 => ⟨1, 0.2, 0.2⟩
  | 1 => ⟨1, 0.6, 0.2⟩
  | 2 => ⟨1, 1, 0.2⟩
  | 3 => ⟨0.2, 1, 0.2⟩
  | 4 => ⟨0.2, 0.4, 1⟩
  | _ => ⟨1, 1, 1⟩

/-- The full grid of bricks initGame pushes, row-major, every brick
active. -/
def initBricks : List GameObject :=
  (List.range BRICK_ROWS).flatMap fun row =>
    (List.range BRICK_COLS).map fun col =>
      { position := ⟨-0.9 + (col : ℚ) * (0.1 + 0.02), 0.7 - (row : ℚ) * (0.04 + 0.02)⟩,
        size := ⟨0.1, 0.04⟩,
        color := brickColor row }

/-- initGame from game2D.cpp: resets paddle, ball (via resetBall),
bricks, gameOver, score and gameStarted; startTime is untouched. -/
def initGame (orc : GOracle) (s : GameState) : GameState :=
  { s with paddle := initPaddle, ball := resetBallObj, ballVelocity := resetBallVel orc,
           bricks := initBricks, gameOver := false, score := 0, gameStarted := false }

/-- The ball after the position update at the top of updateGame. -/
def movedBall (s : GameState) : GameObject :=
  { s.ball with position := ⟨s.ball.position.x + s.ballVelocity.x,
                             s.ball.position.y + s.ballVelocity.y⟩ }

/-- The ball-paddle reflection block of updateGame: when the ball and
the paddle collide the velocity is rebuilt from the hit position with
magnitude glm::length(ballVelocity), and a downward y component is
flipped upward. -/
def paddleBounce (orc : GOracle) (ball paddle : GameObject) (vel : Vec2) : Vec2 :=
  if checkCollision ball paddle then
    let hitPos := (ball.position.x - paddle.position.x) / (paddle.size.x / 2)
    let angle := hitPos * 60 * 3.14159 / 180
    let speed := orc.sqrt (vel.x ^ 2 + vel.y ^ 2)
    let vx := speed * orc.sin angle
    let vy := speed * orc.cos angle
    ⟨vx, if vy < 0 then -vy else vy⟩
  else vel

/-- The brick loop of updateGame: scan the bricks in order, deactivate
the first active brick that collides with the ball and stop (break);
return the updated bricks and whether a brick was hit. -/
def brickPass (ball : GameObject) : List GameObject → List GameObject × Bool
  | [] => ([], false)
  | b :: rest =>
    if b.active && checkCollision ball b then
      ({ b with active := false } :: rest, true)
    else
      let r := brickPass ball rest
      (b :: r.1, r.2)

/-- updateGame from game2D.cpp: move the ball, bounce on walls, bounce
on the paddle, process the brick loop (flipping the y velocity and
adding 10 to the score on a hit), set gameOver when the ball fell below
the screen, and when no brick is active any more call initGame and set
gameStarted back to true. The currentTime parameter of the source is
unused by its body. -/
def updateGame (orc : GOracle) (s : GameState) : GameState :=
  let ball1 := movedBall s
  let vel1 :=
    if ball1.position.x - ball1.size.x / 2 < -1 ∨ 1 < ball1.position.x + ball1.size.x / 2 then
      ⟨-s.ballVelocity.x, s.ballVelocity.y⟩
    else s.ballVelocity
  let vel2 : Vec2 := if 1 < ball1.position.y + ball1.size.y / 2 then ⟨vel1.x, -vel1.y⟩ else vel1
  let vel3 := paddleBounce orc ball1 s.paddle vel2
  let pr := brickPass ball1 s.bricks
  let vel4 : Vec2 := if pr.2 then ⟨vel3.x, -vel3.y⟩ else vel3
  let score1 := if pr.2 then s.score + 10 else s.score
  let gameOver1 := if ball1.position.y - ball1.size.y / 2 < -1 then true else s.gameOver
  let s1 := { s with ball := ball1, ballVelocity := vel4, bricks := pr.1,
                     score := score1, gameOver := gameOver1 }
  if pr.1.all (fun b => !b.active) then
    { initGame orc s1 with gameStarted := true }
  else s1

/-- The keys processInput reads that affect the game state. -/
structure FrameInput where
  left : Bool
  right : Bool
deriving DecidableEq

/-- processInput from game2D.cpp restricted to the game state: paddle
movement with clamping to the screen, only once the game has started. -/
def processInputGame (inp : FrameInput) (s : GameState) : GameState :=
  if s.gameStarted then
    let s1 :=
      if inp.left then
        let px := s.paddle.position.x - 0.03
        let px := if px - s.paddle.size.x / 2 < -1 then -1 + s.paddle.size.x / 2 else px
        { s with paddle := { s.paddle with position := ⟨px, s.paddle.position.y⟩ } }
      else s
    if inp.right then
      let px := s1.paddle.position.x + 0.03
      let px := if 1 < px + s1.paddle.size.x / 2 then 1 - s1.paddle.size.x / 2 else px
      { s1 with paddle := { s1.paddle with position := ⟨px, s1.paddle.position.y⟩ } }
    else s1
  else s

/-- One iteration of the render loop of game2D.cpp restricted to the
game state: processInput, then either the countdown display (which
leaves the game state alone) or, once the elapsed time reaches
WAIT_TIME_SECONDS, setting gameStarted and running updateGame. -/
def frameStep (orc : GOracle) (inp : FrameInput) (currentTime : ℚ) (s : GameState) : GameState :=
  let s1 := processInputGame inp s
  if WAIT_TIME_SECONDS ≤ currentTime - s1.startTime then
    updateGame orc { s1 with gameStarted := true }
  else s1

/-- The game state at the top of the render loop: initGame applied to
the initial globals, then startTime set to the clock value read once
before the loop. -/
def initState (orc : GOracle) (t0 : ℚ) : GameState :=
  { paddle := initPaddle, ball := resetBallObj, ballVelocity := resetBallVel orc,
    bricks := initBricks, gameOver := false, score := 0, gameStarted := false,
    startTime := t0 }

/-- C1, witness: the amended equivalence evaluated at two concrete
overlapping unit squares. -/
theorem checkCollision_iff_overlap_witness :
    checkCollision { position := ⟨0, 0⟩, size := ⟨2, 2⟩, color := ⟨1, 1, 1⟩ }
        { position := ⟨1, 1⟩, size := ⟨2, 2⟩, color := ⟨1, 1, 1⟩ } = true ↔
      rectanglesOverlap { position := ⟨0, 0⟩, size := ⟨2, 2⟩, color := ⟨1, 1, 1⟩ }
        { position := ⟨1, 1⟩, size := ⟨2, 2⟩, color := ⟨1, 1, 1⟩ } :=
  checkCollision_iff_overlap _ _ (by norm_num) (by norm_num) (by norm_num) (by norm_num)

/-- The brick grid has exactly BRICK_ROWS * BRICK_COLS entries. -/
theorem initBricks_length : initBricks.length = BRICK_ROWS * BRICK_COLS := rfl

/-- Every brick of the fresh grid is active. -/
theorem initBricks_active : ∀ b ∈ initBricks, b.active = true := by
  intro b hb
  simp only [initBricks, List.mem_flatMap, List.mem_map] at hb
  obtain ⟨row, -, col, -, rfl⟩ := hb
  rfl

/-- The brick loop only ever turns the active flag off: each output
brick is the corresponding input brick, except possibly with active
forced to false. -/
theorem brickPass_active_monotone (ball : GameObject) (bs : List GameObject) :
    List.Forall₂ (fun b' b => b'.active = true → b.active = true) (brickPass ball bs).1 bs := by
  induction bs with
  | nil => exact List.Forall₂.nil
  | cons b rest ih =>
    rw [brickPass]
    by_cases h : (b.active && checkCollision ball b) = true
    · rw [if_pos h]
      refine List.Forall₂.cons (fun hfalse => ?_) ?_
      · simp at hfalse
      · exact (List.forall₂_same).mpr fun x _ => id
    · rw [if_neg h]
      exact List.Forall₂.cons (fun hb => hb) ih

/-- C5: under an updateGame step a brick only ever transitions from
active to inactive, except when the brick loop leaves no active brick
at all, in which case initGame re-creates the full BRICK_ROWS *
BRICK_COLS grid with every brick active. -/
theorem updateGame_brick_monotone (orc : GOracle) (s : GameState) :
    if (brickPass (movedBall s) s.bricks).1.all (fun b => !b.active) then
      (updateGame orc s).bricks = initBricks ∧
      initBricks.length = BRICK_ROWS * BRICK_COLS ∧
      (∀ b ∈ initBricks, b.active = true)
    else
      List.Forall₂ (fun b' b => b'.active = true → b.active = true)
        (updateGame orc s).bricks s.bricks := by
  by_cases h : ((brickPass (movedBall s) s.bricks).1.all fun b => !b.active) = true
  · rw [if_pos h]
    refine ⟨?_, initBricks_length, initBricks_active⟩
    simp only [updateGame, h, if_true, initGame]
  · rw [if_neg h]
    have hb : (updateGame orc s).bricks = (brickPass (movedBall s) s.bricks).1 := by
      simp only [updateGame]
      rw [if_neg h]
    rw [hb]
    exact brickPass_active_monotone _ _

/-- C5, witness: the dichotomy evaluated on a concrete state with a
single active brick the ball misses. -/
theorem updateGame_brick_monotone_witness :
    let orc : GOracle := ⟨fun _ => 0, fun _ => 0, fun _ => 0, 0⟩
    let s : GameState :=
      { paddle := initPaddle, ball := resetBallObj, ballVelocity := ⟨0, 0.01⟩,
        bricks := [{ position := ⟨0, 0.7⟩, size := ⟨0.1, 0.04⟩, color := ⟨1, 0.2, 0.2⟩ }],
        gameOver := false, score := 0, gameStarted := true, startTime := 0 }
    if (brickPass (movedBall s) s.bricks).1.all (fun b => !b.active) then
      (updateGame orc s).bricks = initBricks ∧
      initBricks.length = BRICK_ROWS * BRICK_COLS ∧
      (∀ b ∈ initBricks, b.active = true)
    else
      List.Forall₂ (fun b' b => b'.active = true → b.active = true)
        (updateGame orc s).bricks s.bricks :=
  updateGame_brick_monotone _ _

/-- C7: when the brick loop leaves every brick destroyed, the step
calls initGame and forces gameStarted back to true: the score is reset
to 0 (the accumulated score is discarded), the full grid of active
bricks is re-created, and the paddle, ball and ball velocity are reset. -/
theorem updateGame_board_cleared (orc : GOracle) (s : GameState)
    (h : ((brickPass (movedBall s) s.bricks).1.all fun b => !b.active) = true) :
    (updateGame orc s).score = 0 ∧ (updateGame orc s).gameStarted = true ∧
    (updateGame orc s).bricks = initBricks ∧
    (∀ b ∈ (updateGame orc s).bricks, b.active = true) ∧
    (updateGame orc s).paddle = initPaddle ∧
    (updateGame orc s).ball = resetBallObj ∧
    (updateGame orc s).ballVelocity = resetBallVel orc := by
  have hbricks : (updateGame orc s).bricks = initBricks := by
    simp only [updateGame, h, if_true, initGame]
  refine ⟨?_, ?_, hbricks, ?_, ?_, ?_, ?_⟩
  all_goals simp only [updateGame, h, if_true, initGame, hbricks]
  all_goals first
  | rfl
  | exact initBricks_active

/-- C7, witness: a cleared board (no bricks at all) with a nonzero
score: after the step the score is 0 and the state is re-initialized. -/
theorem updateGame_board_cleared_witness :
    let orc : GOracle := ⟨fun _ => 0, fun _ => 0, fun _ => 0, 0⟩
    let s : GameState :=
      { paddle := initPaddle, ball := resetBallObj, ballVelocity := ⟨0, 0.01⟩,
        bricks := [], gameOver := false, score := 370, gameStarted := true, startTime := 0 }
    (updateGame orc s).score = 0 ∧ (updateGame orc s).gameStarted = true ∧
    (updateGame orc s).bricks = initBricks ∧
    (∀ b ∈ (updateGame orc s).bricks, b.active = true) ∧
    (updateGame orc s).paddle = initPaddle ∧
    (updateGame orc s).ball = resetBallObj ∧
    (updateGame orc s).ballVelocity = resetBallVel orc :=
  updateGame_board_cleared _ _ rfl

/-- C8: when the ball collides with the paddle, the reflection formula
preserves the squared magnitude of the velocity (assuming the sqrt and
sin/cos library calls satisfy their defining identities at the inputs
the code feeds them), and the resulting y component is nonnegative, so
the ball leaves the paddle moving upward. -/
theorem paddleBounce_speed_and_upward (orc : GOracle) (ball paddle : GameObject) (vel : Vec2)
    (hcol : checkCollision ball paddle = true)
    (hsqrt : orc.sqrt (vel.x ^ 2 + vel.y ^ 2) ^ 2 = vel.x ^ 2 + vel.y ^ 2)
    (htrig :
      orc.sin ((ball.position.x - paddle.position.x) / (paddle.size.x / 2) * 60 * 3.14159 / 180) ^ 2 +
      orc.cos ((ball.position.x - paddle.position.x) / (paddle.size.x / 2) * 60 * 3.14159 / 180) ^ 2
        = 1) :
    (paddleBounce orc ball paddle vel).x ^ 2 + (paddleBounce orc ball paddle vel).y ^ 2 =
      vel.x ^ 2 + vel.y ^ 2 ∧
    0 ≤ (paddleBounce orc ball paddle vel).y := by
  simp only [paddleBounce, hcol, if_true]
  set a := (ball.position.x - paddle.position.x) / (paddle.size.x / 2) * 60 * 3.14159 / 180 with ha
  set sp := orc.sqrt (vel.x ^ 2 + vel.y ^ 2) with hsp
  by_cases hvy : sp * orc.cos a < 0
  · rw [if_pos hvy]
    constructor
    · linear_combination sp ^ 2 * htrig + hsqrt
    · linarith
  · rw [if_neg hvy]
    constructor
    · linear_combination sp ^ 2 * htrig + hsqrt
    · linarith [not_lt.mp hvy]

/-- C8, witness: a concrete collision with velocity (0, 0.01), an
oracle whose sin/cos/sqrt are exact at the inputs used. -/
theorem paddleBounce_speed_and_upward_witness :
    let orc : GOracle := ⟨fun _ => 0, fun _ => 1, fun _ => 0.01, 0⟩
    let ball : GameObject := { position := ⟨0, -0.9⟩, size := ⟨0.02, 0.02⟩, color := ⟨1, 1, 1⟩ }
    let vel : Vec2 := ⟨0, 0.01⟩
    (paddleBounce orc ball initPaddle vel).x ^ 2 + (paddleBounce orc ball initPaddle vel).y ^ 2 =
      vel.x ^ 2 + vel.y ^ 2 ∧
    0 ≤ (paddleBounce orc ball initPaddle vel).y := by
  refine paddleBounce_speed_and_upward _ _ _ _ ?_ ?_ ?_
  · simp only [checkCollision, initPaddle, Bool.and_eq_true, decide_eq_true_eq]
    norm_num
  · norm_num
  · norm_num

/-- C9: while the elapsed time is below WAIT_TIME_SECONDS a frame step
leaves a not-yet-started game state completely unchanged; iterating the
render loop from the initial state over frames that all fall inside the
waiting period keeps the state equal to the initial state, so ball,
velocity, paddle, bricks, score and gameOver are all untouched until
the four-minute wait elapses. -/
theorem waiting_phase_frozen :
    (∀ (orc : GOracle) (inp : FrameInput) (t : ℚ) (s : GameState),
        s.gameStarted = false → t - s.startTime < WAIT_TIME_SECONDS →
        frameStep orc inp t s = s) ∧
    (∀ (orc : GOracle) (t0 : ℚ) (frames : List (GOracle × FrameInput × ℚ)),
        (∀ f ∈ frames, f.2.2 - t0 < WAIT_TIME_SECONDS) →
        frames.foldl (fun s f => frameStep f.1 f.2.1 f.2.2 s) (initState orc t0) =
          initState orc t0) := by
  have hstep : ∀ (orc : GOracle) (inp : FrameInput) (t : ℚ) (s : GameState),
      s.gameStarted = false → t - s.startTime < WAIT_TIME_SECONDS →
      frameStep orc inp t s = s := by
    intro orc inp t s hstart hlt
    have hpi : processInputGame inp s = s := by
      simp only [processInputGame, hstart, Bool.false_eq_true, if_false]
    rw [frameStep, hpi, if_neg (not_le.mpr hlt)]
  refine ⟨hstep, ?_⟩
  intro orc t0 frames hframes
  induction frames with
  | nil => rfl
  | cons f fs ih =>
    rw [List.foldl_cons, hstep f.1 f.2.1 f.2.2 (initState orc t0) rfl
      (by simpa [initState] using hframes f (List.mem_cons_self f fs))]
    exact ih fun g hg => hframes g (List.mem_cons_of_mem f hg)

/-- C9, witness: one frame inside the waiting period leaves the
initial state unchanged, both as a single step and through the loop. -/
theorem waiting_phase_frozen_witness :
    let orc : GOracle := ⟨fun _ => 0, fun _ => 0, fun _ => 0, 0⟩
    let inp : FrameInput := ⟨true, true⟩
    frameStep orc inp 10 (initState orc 0) = initState orc 0 ∧
    [(orc, inp, (10 : ℚ))].foldl (fun s f => frameStep f.1 f.2.1 f.2.2 s) (initState orc 0) =
      initState orc 0 := by
  refine ⟨waiting_phase_frozen.1 _ _ _ _ rfl ?_, waiting_phase_frozen.2 _ _ _ ?_⟩
  · norm_num [initState, WAIT_TIME_SECONDS]
  · intro f hf
    simp only [List.mem_singleton] at hf
    subst hf
    norm_num [WAIT_TIME_SECONDS]

/-! ## Particle systems (the natural-phenomena program) -/

/-- Particle from the natural-phenomena program. The userData field is
uninitialized in the source for every system except the coffee ceremony;
it is modelled as 0 there. -/
structure Particle where
  position : Vec3
  velocity : Vec3
  color : Vec3
  size : ℚ
  life : ℚ
  maxLife : ℚ
  userData : ℚ
deriving DecidableEq

/-- The data members of class ParticleSystem. -/
structure PSystem where
  particles : List Particle
  maxParticles : ℕ
  origin : Vec3
  originVariation : Vec3
  gravity : Vec3
  spawnRate : ℚ
  timeSinceLastSpawn : ℚ
  isActive : Bool
deriving DecidableEq

/-- Oracle for sinf and cosf as used by the particle systems. -/
structure Trig where
  sin : ℚ → ℚ
  cos : ℚ → ℚ

/-- glm::linearRand(lo, hi) modelled on a uniform sample r from [0, 1]. -/
def linearRand (lo hi r : ℚ) : ℚ := lo + (hi - lo) * r

/-- A random stream is valid when every sample lies in [0, 1]. -/
def validRng (rng : ℕ → ℚ) : Prop := ∀ n, 0 ≤ rng n ∧ rng n ≤ 1

/-- The float value of glm::two_pi. -/
def twoPi : ℚ := 6.2831855

/-- The coffee pot position (jebenaPosition), equal to the origin the
CoffeeCeremonySystem constructor passes down. -/
def cJebena : Vec3 := ⟨0, 0.2, -2.5⟩

/-- RainSystem::spawnParticle: a compressed blue drop falling straight
down, life drawn from [1, 2]. The consumed random samples are indexed
from ix in the evaluation order of the source. -/
def rainSpawn (rng : ℕ → ℚ) (sys : PSystem) (ix : ℕ) : Particle × ℕ :=
  let px := linearRand (-sys.originVariation.x) sys.originVariation.x (rng ix)
  let py := linearRand (-sys.originVariation.y) sys.originVariation.y (rng (ix + 1))
  let pz := linearRand (-sys.originVariation.z) sys.originVariation.z (rng (ix + 2))
  let blueVariation := linearRand 0.8 1.0 (rng (ix + 3))
  let size := linearRand 0.1 0.2 (rng (ix + 4))
  let life := linearRand 1.0 2.0 (rng (ix + 5))
  ({ position := v3add sys.origin ⟨px, py, pz⟩, velocity := ⟨0, -5, 0⟩,
     color := ⟨0.3, 0.5, blueVariation⟩, size := size, life := life, maxLife := life,
     userData := 0 }, ix + 6)

/-- WaterfallSystem::spawnParticle: wave-like motion, greenish-blue
color, life drawn from [2, 4]. -/
def waterfallSpawn (trig : Trig) (rng : ℕ → ℚ) (sys : PSystem) (ix : ℕ) : Particle × ℕ :=
  let px := linearRand (-sys.originVariation.x) sys.originVariation.x (rng ix)
  let py := linearRand (-sys.originVariation.y) sys.originVariation.y (rng (ix + 1))
  let pz := linearRand (-sys.originVariation.z) sys.originVariation.z (rng (ix + 2))
  let angle := linearRand 0 twoPi (rng (ix + 3))
  let vel : Vec3 := ⟨trig.sin angle * 0.3, linearRand (-1.0) 0.0 (rng (ix + 4)),
                     trig.cos angle * 0.3 + linearRand 0.0 2.0 (rng (ix + 5))⟩
  let greenVariation := linearRand 0.6 0.8 (rng (ix + 6))
  let blueVariation := linearRand 0.7 0.9 (rng (ix + 7))
  let size := linearRand 0.3 0.6 (rng (ix + 8))
  let life := linearRand 2.0 4.0 (rng (ix + 9))
  ({ position := v3add sys.origin ⟨px, py, pz⟩, velocity := vel,
     color := ⟨0.2, greenVariation, blueVariation⟩, size := size, life := life,
     maxLife := life, userData := 0 }, ix + 10)

/-- FireSystem::spawnParticle: dispersed motion away from the center,
red to orange color without green, life drawn from [0.5, 1.5]. -/
def fireSpawn (trig : Trig) (rng : ℕ → ℚ) (sys : PSystem) (ix : ℕ) : Particle × ℕ :=
  let px := linearRand (-sys.originVariation.x * 1.5) (sys.originVariation.x * 1.5) (rng ix)
  let py := linearRand (-sys.originVariation.y) sys.originVariation.y (rng (ix + 1))
  let pz := linearRand (-sys.originVariation.z * 1.5) (sys.originVariation.z * 1.5) (rng (ix + 2))
  let angle := linearRand 0 twoPi (rng (ix + 3))
  let dispersionForce := linearRand 0.5 1.5 (rng (ix + 4))
  let vel : Vec3 := ⟨trig.cos angle * dispersionForce, linearRand 0.5 2.0 (rng (ix + 5)),
                     trig.sin angle * dispersionForce⟩
  let t := linearRand 0.0 1.0 (rng (ix + 6))
  let color : Vec3 :=
    if t < 0.6 then ⟨1, linearRand 0.1 0.3 (rng (ix + 7)), 0⟩
    else ⟨1, linearRand 0.4 0.7 (rng (ix + 7)), 0⟩
  let size := linearRand 0.5 1.0 (rng (ix + 8))
  let life := linearRand 0.5 1.5 (rng (ix + 9))
  ({ position := v3add sys.origin ⟨px, py, pz⟩, velocity := vel, color := color,
     size := size, life := life, maxLife := life, userData := 0 }, ix + 10)

/-- DustSystem::spawnParticle: slow air-like drift, tan color, life
drawn from [5, 10]. -/
def dustSpawn (trig : Trig) (rng : ℕ → ℚ) (sys : PSystem) (ix : ℕ) : Particle × ℕ :=
  let px := linearRand (-sys.originVariation.x) sys.originVariation.x (rng ix)
  let py := linearRand (-sys.originVariation.y) sys.originVariation.y (rng (ix + 1))
  let pz := linearRand (-sys.originVariation.z) sys.originVariation.z (rng (ix + 2))
  let angle := linearRand 0 twoPi (rng (ix + 3))
  let speed := linearRand 0.05 0.2 (rng (ix + 4))
  let vel : Vec3 := ⟨trig.cos angle * speed, linearRand (-0.05) 0.1 (rng (ix + 5)),
                     trig.sin angle * speed⟩
  let brownVariation := linearRand 0.8 1.0 (rng (ix + 6))
  let size := linearRand 0.2 0.4 (rng (ix + 7))
  let life := linearRand 5.0 10.0 (rng (ix + 8))
  ({ position := v3add sys.origin ⟨px, py, pz⟩, velocity := vel,
     color := ⟨0.9 * brownVariation, 0.7 * brownVariation, 0.5 * brownVariation⟩,
     size := size, life := life, maxLife := life, userData := 0 }, ix + 9)

/-- CoffeeCeremonySystem::spawnParticle: a thin smoke particle assigned
to the left or right stream (the source draws rand() % 2, modelled as a
sample below one half), life drawn from [4, 6]. -/
def coffeeSpawn (rng : ℕ → ℚ) (sys : PSystem) (ix : ℕ) : Particle × ℕ :=
  let px := linearRand (-0.03) 0.03 (rng ix)
  let py := linearRand 0.0 0.03 (rng (ix + 1))
  let pz := linearRand (-0.03) 0.03 (rng (ix + 2))
  let leftStream : Bool := decide (rng (ix + 3) < 0.5)
  let angle : ℚ := if leftStream then -0.2 else 0.2
  let vel : Vec3 := ⟨angle, linearRand 0.7 0.9 (rng (ix + 4)), 0⟩
  let grayValue := linearRand 0.75 0.85 (rng (ix + 5))
  let size := linearRand 0.15 0.25 (rng (ix + 6))
  let life := linearRand 4.0 6.0 (rng (ix + 7))
  ({ position := v3add sys.origin ⟨px, py, pz⟩, velocity := vel,
     color := ⟨grayValue, grayValue, grayValue⟩, size := size, life := life,
     maxLife := life, userData := if leftStream then 0 else 1 }, ix + 8)

/-- The per-survivor physics of ParticleSystem::update: velocity +=
gravity * dt, then position += velocity * dt (with the new velocity). -/
def gravityPhys (gravity : Vec3) (dt : ℚ) (p : Particle) : Particle :=
  let v := v3add p.velocity (v3smul dt gravity)
  { p with velocity := v, position := v3add p.position (v3smul dt v) }

/-- The per-survivor physics of CoffeeCeremonySystem::update: reduced
gravity, zigzag wave motion, path correction toward the stream, and a
color that lightens with height. The wall-clock time read through
glfwGetTime is the time parameter. -/
def coffeePhys (trig : Trig) (time : ℚ) (gravity : Vec3) (dt : ℚ) (p : Particle) : Particle :=
  let v := v3add p.velocity (v3smul (dt * 0.7) gravity)
  let leftStream : Bool := decide (p.userData < 0.5)
  let heightRatio := p.position.y - cJebena.y
  let waveFreq : ℚ := if leftStream then 2.5 else 3.2
  let waveAmp := 0.2 * min 1 (heightRatio / 2)
  let zigzagX := trig.sin (time * waveFreq + heightRatio * 2) * waveAmp
  let zigzagZ := trig.cos (time * waveFreq * 0.7 + heightRatio * 1.5) * waveAmp * 0.5
  let zigzagMotion := v3smul dt ⟨zigzagX, 0, zigzagZ⟩
  let basePathX := (if leftStream then (-0.2 : ℚ) else 0.2) * heightRatio
  let pathForce := 0.3 * dt
  let targetX := cJebena.x + basePathX + zigzagX * 3
  let targetZ := cJebena.z + zigzagZ * 3
  let pathCorrection : Vec3 :=
    ⟨(targetX - p.position.x) * pathForce, 0, (targetZ - p.position.z) * pathForce⟩
  let pos := v3add (v3add (v3add p.position (v3smul dt v)) zigzagMotion) pathCorrection
  let heightFactor := min 1 (heightRatio / 3)
  let gray := 0.8 + (0.95 - 0.8) * heightFactor
  { p with velocity := v, position := pos, color := ⟨gray, gray, gray⟩ }

/-- The erase loop shared by both update bodies: each particle first has
its life decreased by dt; a particle whose life is then ≤ 0 is erased,
any other particle is kept after the per-survivor physics update. -/
def eraseDead (phys : Particle → Particle) (dt : ℚ) : List Particle → List Particle
  | [] => []
  | p :: ps =>
    let p1 := { p with life := p.life - dt }
    if p1.life ≤ 0 then eraseDead phys dt ps
    else phys p1 :: eraseDead phys dt ps

/-- The spawn loop shared by both update bodies: while the accumulated
time is at least the spawn rate and the vector is below maxParticles,
push one spawned particle and subtract the rate. The fuel argument is
an upper bound on the iterations; update passes maxParticles minus the
current length, which makes the recursion mirror the source loop
exactly. -/
def spawnLoop (spawn : PSystem → ℕ → Particle × ℕ) :
    ℕ → PSystem → ℕ → PSystem × ℕ
  | 0, sys, ix => (sys, ix)
  | fuel + 1, sys, ix =>
    if sys.spawnRate ≤ sys.timeSinceLastSpawn ∧ sys.particles.length < sys.maxParticles then
      let r := spawn sys ix
      spawnLoop spawn fuel
        { sys with particles := sys.particles ++ [r.1],
                   timeSinceLastSpawn := sys.timeSinceLastSpawn - sys.spawnRate } r.2
    else (sys, ix)

/-- The common shape of ParticleSystem::update and
CoffeeCeremonySystem::update: do nothing when inactive, otherwise run
the erase loop, add dt to the spawn accumulator, and run the spawn
loop. -/
def psUpdateWith (phys : Particle → Particle) (spawn : PSystem → ℕ → Particle × ℕ)
    (dt : ℚ) (sys : PSystem) (ix : ℕ) : PSystem × ℕ :=
  if sys.isActive then
    let sys1 := { sys with particles := eraseDead phys dt sys.particles,
                           timeSinceLastSpawn := sys.timeSinceLastSpawn + dt }
    spawnLoop spawn (sys1.maxParticles - sys1.particles.length) sys1 ix
  else (sys, ix)

/-- The five particle systems of the program. -/
inductive SysId
  | rain
  | waterfall
  | fire
  | dust
  | coffee
deriving DecidableEq

/-- The spawnParticle override of each system. -/
def spawnOf (id : SysId) (trig : Trig) (rng : ℕ → ℚ) : PSystem → ℕ → Particle × ℕ :=
  match id with
  | .rain => rainSpawn rng
  | .waterfall => waterfallSpawn trig rng
  | .fire => fireSpawn trig rng
  | .dust => dustSpawn trig rng
  | .coffee => coffeeSpawn rng

/-- The per-survivor physics of each system: the base-class formula for
the first four, the zigzag smoke formula for the coffee ceremony. -/
def physOf (id : SysId) (trig : Trig) (time : ℚ) (sys : PSystem) (dt : ℚ) :
    Particle → Particle :=
  match id with
  | .rain => gravityPhys sys.gravity dt
  | .waterfall => gravityPhys sys.gravity dt
  | .fire => gravityPhys sys.gravity dt
  | .dust => gravityPhys sys.gravity dt
  | .coffee => coffeePhys trig time sys.gravity dt

/-- update(dt) of the given system. -/
def updateOf (id : SysId) (trig : Trig) (rng : ℕ → ℚ) (time dt : ℚ)
    (sys : PSystem) (ix : ℕ) : PSystem × ℕ :=
  psUpdateWith (physOf id trig time sys dt) (spawnOf id trig rng) dt sys ix

/-- The base-class constructor: empty vector, capacity, emitter
parameters, zero accumulator, active. -/
def basePSystem (max : ℕ) (orig var grav : Vec3) (rate : ℚ) : PSystem :=
  { particles := [], maxParticles := max, origin := orig, originVariation := var,
    gravity := grav, spawnRate := rate, timeSinceLastSpawn := 0, isActive := true }

/-- The pre-population loop of each derived constructor: spawn n
particles unconditionally. -/
def spawnN (spawn : PSystem → ℕ → Particle × ℕ) : ℕ → PSystem → ℕ → PSystem × ℕ
  | 0, sys, ix => (sys, ix)
  | n + 1, sys, ix =>
    let r := spawn sys ix
    spawnN spawn n { sys with particles := sys.particles ++ [r.1] } r.2

/-- The freshly constructed system: base-class construction with the
parameters of the derived constructor, followed by maxParticles / 4
pre-population spawns. -/
def mkSystem (id : SysId) (trig : Trig) (rng : ℕ → ℚ) : PSystem × ℕ :=
  match id with
  | .rain =>
    spawnN (rainSpawn rng) (1000 / 4) (basePSystem 1000 ⟨0, 10, 0⟩ ⟨10, 0, 10⟩ ⟨0, -9.8, 0⟩ 0.001) 0
  | .waterfall =>
    spawnN (waterfallSpawn trig rng) (2000 / 4)
      (basePSystem 2000 ⟨0, 5, -5⟩ ⟨2, 0.1, 0.1⟩ ⟨0, -9.8, 0⟩ 0.0005) 0
  | .fire =>
    spawnN (fireSpawn trig rng) (800 / 4)
      (basePSystem 800 ⟨0, 0, -2⟩ ⟨1, 0.1, 1⟩ ⟨0, 2, 0⟩ 0.0005) 0
  | .dust =>
    spawnN (dustSpawn trig rng) (600 / 4)
      (basePSystem 600 ⟨0, 0.1, 0⟩ ⟨10, 0.1, 10⟩ ⟨0, 0.05, 0⟩ 0.01) 0
  | .coffee =>
    spawnN (coffeeSpawn rng) (500 / 4)
      (basePSystem 500 cJebena ⟨0.05, 0.02, 0.05⟩ ⟨0, 0.4, 0⟩ 0.008) 0

/-- A sequence of update calls on the freshly constructed system; each
frame carries the wall-clock time and the dt passed to update. -/
def runSystem (id : SysId) (trig : Trig) (rng : ℕ → ℚ) (frames : List (ℚ × ℚ)) :
    PSystem × ℕ :=
  frames.foldl (fun st f => updateOf id trig rng f.1 f.2 st.1 st.2) (mkSystem id trig rng)

/-- The erase loop never lengthens the particle vector. -/
theorem eraseDead_length_le (phys : Particle → Particle) (dt : ℚ) :
    ∀ ps : List Particle, (eraseDead phys dt ps).length ≤ ps.length := by
  intro ps
  induction ps with
  | nil => exact Nat.le_refl 0
  | cons p ps ih =>
    rw [eraseDead]
    by_cases h : p.life - dt ≤ 0
    · rw [if_pos h]
      exact Nat.le_succ_of_le ih
    · rw [if_neg h]
      exact Nat.succ_le_succ ih

/-- The spawn loop keeps the capacity field and never pushes the vector
above it. -/
theorem spawnLoop_le_max (spawn : PSystem → ℕ → Particle × ℕ) :
    ∀ (fuel : ℕ) (sys : PSystem) (ix : ℕ), sys.particles.length ≤ sys.maxParticles →
      (spawnLoop spawn fuel sys ix).1.particles.length ≤
        (spawnLoop spawn fuel sys ix).1.maxParticles ∧
      (spawnLoop spawn fuel sys ix).1.maxParticles = sys.maxParticles := by
  intro fuel
  induction fuel with
  | zero => exact fun sys ix h => ⟨h, rfl⟩
  | succ fuel ih =>
    intro sys ix h
    rw [spawnLoop]
    by_cases hc : sys.spawnRate ≤ sys.timeSinceLastSpawn ∧
        sys.particles.length < sys.maxParticles
    · rw [if_pos hc]
      have h1 : (sys.particles ++ [(spawn sys ix).1]).length ≤ sys.maxParticles := by
        rw [List.length_append, List.length_singleton]
        exact hc.2
      exact ih _ _ h1
    · rw [if_neg hc]
      exact ⟨h, rfl⟩

/-- update(dt) keeps the capacity field and preserves the capacity
bound on the particle vector. -/
theorem updateOf_le_max (id : SysId) (trig : Trig) (rng : ℕ → ℚ) (time dt : ℚ)
    (sys : PSystem) (ix : ℕ) (h : sys.particles.length ≤ sys.maxParticles) :
    (updateOf id trig rng time dt sys ix).1.particles.length ≤
      (updateOf id trig rng time dt sys ix).1.maxParticles ∧
    (updateOf id trig rng time dt sys ix).1.maxParticles = sys.maxParticles := by
  unfold updateOf psUpdateWith
  by_cases hact : sys.isActive = true
  · rw [if_pos hact]
    exact spawnLoop_le_max _ _ _ _ (le_trans (eraseDead_length_le _ _ _) h)
  · rw [if_neg hact]
    exact ⟨h, rfl⟩

/-- The pre-population loop keeps the capacity field and adds exactly
one particle per iteration. -/
theorem spawnN_fields (spawn : PSystem → ℕ → Particle × ℕ) :
    ∀ (n : ℕ) (sys : PSystem) (ix : ℕ),
      (spawnN spawn n sys ix).1.maxParticles = sys.maxParticles ∧
      (spawnN spawn n sys ix).1.particles.length = sys.particles.length + n := by
  intro n
  induction n with
  | zero => exact fun sys ix => ⟨rfl, rfl⟩
  | succ n ih =>
    intro sys ix
    rw [spawnN]
    refine ⟨(ih _ _).1, ?_⟩
    rw [(ih _ _).2, List.length_append, List.length_singleton]
    omega

/-- Every freshly constructed system starts within its capacity. -/
theorem mkSystem_le_max (id : SysId) (trig : Trig) (rng : ℕ → ℚ) :
    (mkSystem id trig rng).1.particles.length ≤ (mkSystem id trig rng).1.maxParticles := by
  cases id <;>
    · rw [mkSystem]
      rw [(spawnN_fields _ _ _ _).1, (spawnN_fields _ _ _ _).2]
      norm_num [basePSystem]

/-- C2: for each of the five particle systems and every sequence of
update(dt) calls with dt ≥ 0 starting from the freshly constructed
system, the particle vector never grows beyond maxParticles, the fixed
capacity passed at construction. -/
theorem particles_never_exceed_capacity (id : SysId) (trig : Trig) (rng : ℕ → ℚ)
    (frames : List (ℚ × ℚ)) (_hdt : ∀ f ∈ frames, 0 ≤ f.2) :
    (runSystem id trig rng frames).1.particles.length ≤
      (mkSystem id trig rng).1.maxParticles := by
  rw [runSystem]
  have main : ∀ (fr : List (ℚ × ℚ)) (st : PSystem × ℕ),
      st.1.particles.length ≤ st.1.maxParticles →
      (fr.foldl (fun st f => updateOf id trig rng f.1 f.2 st.1 st.2) st).1.particles.length ≤
        (fr.foldl (fun st f => updateOf id trig rng f.1 f.2 st.1 st.2) st).1.maxParticles ∧
      (fr.foldl (fun st f => updateOf id trig rng f.1 f.2 st.1 st.2) st).1.maxParticles =
        st.1.maxParticles := by
    intro fr
    induction fr with
    | nil => exact fun st h => ⟨h, rfl⟩
    | cons f fs ih =>
      intro st h
      rw [List.foldl_cons]
      have hstep := updateOf_le_max id trig rng f.1 f.2 st.1 st.2 h
      refine ⟨(ih _ hstep.1).1, ?_⟩
      rw [(ih _ hstep.1).2, hstep.2]
  obtain ⟨h1, h2⟩ := main frames (mkSystem id trig rng) (mkSystem_le_max id trig rng)
  rw [← h2]
  exact h1

/-- C2, witness: one rain update with dt = 1 from the fresh system. -/
theorem particles_never_exceed_capacity_witness :
    let trig : Trig := ⟨fun _ => 0, fun _ => 0⟩
    let rng : ℕ → ℚ := fun _ => 1 / 2
    (runSystem .rain trig rng [(0, 1)]).1.particles.length ≤
      (mkSystem .rain trig rng).1.maxParticles := by
  refine particles_never_exceed_capacity _ _ _ _ ?_
  intro f hf
  rw [List.mem_singleton] at hf
  rw [hf]
  norm_num

/-- The per-survivor physics never changes the life field. -/
theorem physOf_life (id : SysId) (trig : Trig) (time : ℚ) (sys : PSystem) (dt : ℚ)
    (p : Particle) : (physOf id trig time sys dt p).life = p.life := by
  cases id <;> rfl

/-- The erase loop, on the life fields: each life is decreased by dt and
exactly the entries that became ≤ 0 are dropped. -/
theorem eraseDead_map_life (phys : Particle → Particle)
    (hphys : ∀ p, (phys p).life = p.life) (dt : ℚ) :
    ∀ ps : List Particle,
      (eraseDead phys dt ps).map (fun p => p.life) =
        ((ps.map fun p => p.life - dt).filter fun l => decide (0 < l)) := by
  intro ps
  induction ps with
  | nil => rfl
  | cons p ps ih =>
    rw [eraseDead, List.map_cons, List.filter_cons]
    by_cases h : p.life - dt ≤ 0
    · rw [if_pos h, if_neg (by simpa using not_lt.mpr h), ih]
    · rw [if_neg h, if_pos (by simpa using not_le.mp h), List.map_cons, ih, hphys]

/-- Every particle surviving the erase loop has positive life. -/
theorem eraseDead_life_pos (phys : Particle → Particle)
    (hphys : ∀ p, (phys p).life = p.life) (dt : ℚ) :
    ∀ ps : List Particle, ∀ q ∈ eraseDead phys dt ps, 0 < q.life := by
  intro ps
  induction ps with
  | nil => intro q hq; cases hq
  | cons p ps ih =>
    intro q hq
    rw [eraseDead] at hq
    by_cases h : p.life - dt ≤ 0
    · rw [if_pos h] at hq
      exact ih q hq
    · rw [if_neg h] at hq
      rcases List.mem_cons.mp hq with hq | hq
      · rw [hq, hphys]
        exact not_le.mp h
      · exact ih q hq

/-- The spawn loop only appends particles produced by the spawn
function. -/
theorem spawnLoop_append (spawn : PSystem → ℕ → Particle × ℕ) :
    ∀ (fuel : ℕ) (sys : PSystem) (ix : ℕ),
      ∃ tail, (spawnLoop spawn fuel sys ix).1.particles = sys.particles ++ tail ∧
        ∀ p ∈ tail, ∃ sys2 ix2, p = (spawn sys2 ix2).1 := by
  intro fuel
  induction fuel with
  | zero => exact fun sys ix => ⟨[], (List.append_nil _).symm, fun p hp => absurd hp (List.not_mem_nil p)⟩
  | succ fuel ih =>
    intro sys ix
    rw [spawnLoop]
    by_cases hc : sys.spawnRate ≤ sys.timeSinceLastSpawn ∧
        sys.particles.length < sys.maxParticles
    · rw [if_pos hc]
      obtain ⟨tail, heq, hmem⟩ := ih
        { sys with particles := sys.particles ++ [(spawn sys ix).1],
                   timeSinceLastSpawn := sys.timeSinceLastSpawn - sys.spawnRate }
        (spawn sys ix).2
      refine ⟨(spawn sys ix).1 :: tail, ?_, ?_⟩
      · rw [heq]
        simp [List.append_assoc]
      · intro p hp
        rcases List.mem_cons.mp hp with hp | hp
        · exact ⟨sys, ix, hp⟩
        · exact hmem p hp
    · rw [if_neg hc]
      exact ⟨[], (List.append_nil _).symm, fun p hp => absurd hp (List.not_mem_nil p)⟩

/-- linearRand with a positive lower bound and a valid sample is
positive. -/
theorem linearRand_pos {lo hi r : ℚ} (hlo : 0 < lo) (hle : lo ≤ hi) (hr : 0 ≤ r) :
    0 < linearRand lo hi r := by
  unfold linearRand
  nlinarith

/-- Each spawnParticle override assigns a positive life (the life
ranges of the five systems all have positive lower bounds). -/
theorem spawnOf_life_pos (id : SysId) (trig : Trig) (rng : ℕ → ℚ) (sys : PSystem)
    (ix : ℕ) (hrng : validRng rng) : 0 < ((spawnOf id trig rng sys ix).1).life := by
  cases id
  case rain => exact linearRand_pos (by norm_num) (by norm_num) (hrng (ix + 5)).1
  case waterfall => exact linearRand_pos (by norm_num) (by norm_num) (hrng (ix + 9)).1
  case fire => exact linearRand_pos (by norm_num) (by norm_num) (hrng (ix + 9)).1
  case dust => exact linearRand_pos (by norm_num) (by norm_num) (hrng (ix + 8)).1
  case coffee => exact linearRand_pos (by norm_num) (by norm_num) (hrng (ix + 7)).1

/-- C3: an update(dt) call on an active system decreases every life by
dt and removes exactly the particles whose decreased life is ≤ 0; the
vector after the call is those survivors followed by freshly spawned
particles, and every particle in it has positive life. -/
theorem updateOf_life_bookkeeping (id : SysId) (trig : Trig) (time : ℚ) (rng : ℕ → ℚ)
    (ix : ℕ) (dt : ℚ) (sys : PSystem) (hrng : validRng rng) (hact : sys.isActive = true) :
    ((eraseDead (physOf id trig time sys dt) dt sys.particles).map fun p => p.life) =
      ((sys.particles.map fun p => p.life - dt).filter fun l => decide (0 < l)) ∧
    (∃ newPs,
      (updateOf id trig rng time dt sys ix).1.particles =
        eraseDead (physOf id trig time sys dt) dt sys.particles ++ newPs ∧
      ∀ p ∈ newPs, 0 < p.life) ∧
    ∀ p ∈ (updateOf id trig rng time dt sys ix).1.particles, 0 < p.life := by
  have hphys := physOf_life id trig time sys dt
  have hshape : ∃ tail,
      (updateOf id trig rng time dt sys ix).1.particles =
        eraseDead (physOf id trig time sys dt) dt sys.particles ++ tail ∧
      ∀ p ∈ tail, ∃ sys2 ix2, p = (spawnOf id trig rng sys2 ix2).1 := by
    unfold updateOf psUpdateWith
    rw [if_pos hact]
    exact spawnLoop_append _ _ _ _
  obtain ⟨tail, heq, hmem⟩ := hshape
  have htailpos : ∀ p ∈ tail, 0 < p.life := by
    intro p hp
    obtain ⟨sys2, ix2, rfl⟩ := hmem p hp
    exact spawnOf_life_pos id trig rng sys2 ix2 hrng
  refine ⟨eraseDead_map_life _ hphys dt sys.particles, ⟨tail, heq, htailpos⟩, ?_⟩
  intro p hp
  rw [heq] at hp
  rcases List.mem_append.mp hp with hp | hp
  · exact eraseDead_life_pos _ hphys dt sys.particles p hp
  · exact htailpos p hp

/-- C3, witness: a rain update with dt = 1 on a two-slot system holding
one particle with life 5. -/
theorem updateOf_life_bookkeeping_witness :
    let trig : Trig := ⟨fun _ => 0, fun _ => 0⟩
    let rng : ℕ → ℚ := fun _ => 1 / 2
    let sys : PSystem :=
      { particles := [⟨⟨0, 0, 0⟩, ⟨0, 0, 0⟩, ⟨0, 0, 0⟩, 1, 5, 5, 0⟩],
        maxParticles := 2, origin := ⟨0, 0, 0⟩, originVariation := ⟨0, 0, 0⟩,
        gravity := ⟨0, 0, 0⟩, spawnRate := 1, timeSinceLastSpawn := 0, isActive := true }
    ((eraseDead (physOf .rain trig 0 sys 1) 1 sys.particles).map fun p => p.life) =
      ((sys.particles.map fun p => p.life - 1).filter fun l => decide (0 < l)) ∧
    (∃ newPs,
      (updateOf .rain trig rng 0 1 sys 0).1.particles =
        eraseDead (physOf .rain trig 0 sys 1) 1 sys.particles ++ newPs ∧
      ∀ p ∈ newPs, 0 < p.life) ∧
    ∀ p ∈ (updateOf .rain trig rng 0 1 sys 0).1.particles, 0 < p.life := by
  refine updateOf_life_bookkeeping .rain _ 0 _ 0 1 _ ?_ rfl
  intro n
  norm_num

/-! ## Startup failure handling (main of game2D.cpp) -/

/-- The outcomes of the fallible library calls made during startup:
glfwInit, glfwCreateWindow, gladLoadGLLoader, the two shader compile
status queries and the link status query. -/
structure InitFlags where
  glfwOk : Bool
  windowOk : Bool
  gladOk : Bool
  vertexOk : Bool
  fragmentOk : Bool
  linkOk : Bool
deriving DecidableEq

/-- The startup sequence of main in game2D.cpp, from glfwInit to the
end of shader linking: the lines printed to standard output, paired
with some exit status when main returns early, or none when execution
falls through to the render loop (carrying the possibly unlinked
program id). -/
def mainInit (f : InitFlags) : List String × Option ℤ :=
  if !f.glfwOk then (["Failed to initialize GLFW"], some (-1))
  else if !f.windowOk then (["Failed to create GLFW window"], some (-1))
  else if !f.gladOk then (["Failed to initialize GLAD"], some (-1))
  else
    let out1 := if !f.vertexOk then ["ERROR::SHADER::VERTEX::COMPILATION_FAILED"] else []
    let out2 := if !f.fragmentOk then ["ERROR::SHADER::FRAGMENT::COMPILATION_FAILED"] else []
    let out3 := if !f.linkOk then ["ERROR::SHADER::PROGRAM::LINKING_FAILED"] else []
    (out1 ++ out2 ++ out3, none)

/-- C4: every window or GL-context creation failure prints a message and
makes main return a negative status; main returns early exactly when
one of those three calls fails, and the status is always negative; a
vertex, fragment or link failure prints its error line and execution
continues to the render loop. -/
theorem mainInit_failure_handling (f : InitFlags) :
    (f.glfwOk = false → mainInit f = (["Failed to initialize GLFW"], some (-1))) ∧
    (f.glfwOk = true → f.windowOk = false →
      mainInit f = (["Failed to create GLFW window"], some (-1))) ∧
    (f.glfwOk = true → f.windowOk = true → f.gladOk = false →
      mainInit f = (["Failed to initialize GLAD"], some (-1))) ∧
    (∀ c, (mainInit f).2 = some c → c < 0) ∧
    ((mainInit f).2 = none ↔ f.glfwOk = true ∧ f.windowOk = true ∧ f.gladOk = true) ∧
    (f.glfwOk = true → f.windowOk = true → f.gladOk = true → f.vertexOk = false →
      "ERROR::SHADER::VERTEX::COMPILATION_FAILED" ∈ (mainInit f).1 ∧ (mainInit f).2 = none) ∧
    (f.glfwOk = true → f.windowOk = true → f.gladOk = true → f.fragmentOk = false →
      "ERROR::SHADER::FRAGMENT::COMPILATION_FAILED" ∈ (mainInit f).1 ∧ (mainInit f).2 = none) ∧
    (f.glfwOk = true → f.windowOk = true → f.gladOk = true → f.linkOk = false →
      "ERROR::SHADER::PROGRAM::LINKING_FAILED" ∈ (mainInit f).1 ∧ (mainInit f).2 = none) := by
  obtain ⟨g, w, gl, v, fr, l⟩ := f
  cases g <;> cases w <;> cases gl <;> cases v <;> cases fr <;> cases l <;>
    simp [mainInit]

/-- C4, witness: the configuration where only the vertex shader fails
to compile prints the vertex error line and still reaches the render
loop. -/
theorem mainInit_failure_handling_witness :
    "ERROR::SHADER::VERTEX::COMPILATION_FAILED" ∈
      (mainInit ⟨true, true, true, false, true, true⟩).1 ∧
    (mainInit ⟨true, true, true, false, true, true⟩).2 = none :=
  (mainInit_failure_handling ⟨true, true, true, false, true, true⟩).2.2.2.2.2.1
    rfl rfl rfl rfl

/-! ## Race animation (CEStudents.cpp) -/

/-- NUM_STUDENTS from CEStudents.cpp. -/
def NUM_STUDENTS : ℕ := 32

/-- TRACK_LENGTH from CEStudents.cpp. -/
def TRACK_LENGTH : ℚ := 50

/-- Student from CEStudents.cpp, without the graphics-only humanModel
member. -/
structure Student where
  name : String
  trackNumber : ℤ
  position : ℚ
  speed : ℚ
  armPhase : ℚ
  legPhase : ℚ
  color : Vec3
  finishTime : ℚ
  finished : Bool
deriving DecidableEq

/-- The per-student body of the update-and-render loop of main in
CEStudents.cpp: a student who has not finished advances by speed times
dt and, on reaching the far end of the track, is marked finished with
the current frame time; the subsequent renderStudent call draws the
student and leaves position, finishTime and finished untouched. -/
def studentFrameStep (currentFrame dt : ℚ) (st : Student) : Student :=
  if st.finished then st
  else
    let pos := st.position - st.speed * dt
    if pos ≤ -TRACK_LENGTH / 2 then
      { st with position := pos, finished := true, finishTime := currentFrame }
    else { st with position := pos }

/-- Modelled from the spec: the body of initializeStudents is not under
src/ (CEStudents.cpp is cut short; only the declaration, the resetRace
caller and the main caller are present). Per the spec the students are
plain structs re-initialized in the waiting state at the start of the
track, so each of the NUM_STUDENTS students is produced with
finished = false, a cleared finishTime and the starting position. -/
def initializeStudents : List Student :=
  (List.range NUM_STUDENTS).map fun i =>
    { name := "CE Student " ++ toString (i + 1), trackNumber := ((i % 5 : ℕ) : ℤ),
      position := TRACK_LENGTH / 2, speed := 1, armPhase := 0, legPhase := 0,
      color := ⟨1, 1, 1⟩, finishTime := 0, finished := false }

/-- resetRace from CEStudents.cpp: re-initialize the students and clear
raceStarted and raceFinished. -/
def resetRace : List Student × Bool × Bool := (initializeStudents, false, false)

/-- C6: a finished student is a fixed point of every later frame step
(position and finishTime included); a frame step never clears the
finished flag; and resetRace re-initializes every student with
finished = false. -/
theorem finished_is_absorbing :
    (∀ (st : Student) (frames : List (ℚ × ℚ)), st.finished = true →
      frames.foldl (fun s f => studentFrameStep f.1 f.2 s) st = st) ∧
    (∀ (st : Student) (t dt : ℚ),
      (studentFrameStep t dt st).finished = false → st.finished = false) ∧
    (∀ s ∈ resetRace.1, s.finished = false) := by
  have hfix : ∀ (t dt : ℚ) (st : Student), st.finished = true →
      studentFrameStep t dt st = st := by
    intro t dt st h
    rw [studentFrameStep, if_pos h]
  refine ⟨?_, ?_, ?_⟩
  · intro st frames h
    induction frames with
    | nil => rfl
    | cons f fs ih =>
      rw [List.foldl_cons, hfix f.1 f.2 st h]
      exact ih
  · intro st t dt h
    cases hst : st.finished
    · rfl
    · rw [hfix t dt st hst] at h
      exact Bool.noConfusion (hst.symm.trans h)
  · intro s hs
    simp only [resetRace, initializeStudents, List.mem_map] at hs
    obtain ⟨i, -, rfl⟩ := hs
    rfl

/-- C6, witness: one frame leaves a finished student untouched, a
student far from the line keeps finished = false, and resetRace yields
only unfinished students. -/
theorem finished_is_absorbing_witness :
    let stF : Student := ⟨"Alpha", 0, -30, 1, 0, 0, ⟨1, 1, 1⟩, 3, true⟩
    let stU : Student := ⟨"Beta", 1, 10, 1, 0, 0, ⟨1, 1, 1⟩, 0, false⟩
    ([(1, 1)] : List (ℚ × ℚ)).foldl (fun s f => studentFrameStep f.1 f.2 s) stF = stF ∧
    stU.finished = false ∧
    ∀ s ∈ resetRace.1, s.finished = false := by
  refine ⟨finished_is_absorbing.1 _ _ rfl, finished_is_absorbing.2.1 _ 1 1 ?_,
    finished_is_absorbing.2.2⟩
  norm_num [studentFrameStep, TRACK_LENGTH]

end OpenGLProj
